import Mathlib

/-
Verification of the BeckDB storage engine (a Bitcask-style append-only
key-value store written in Go) against its natural-language specification.

The engine is shallowly embedded: Go byte slices and strings become lists
of bytes (Fin 256), files become byte lists with a tracked size, the
in-memory key directory becomes an association list (modelling the Go
map, whose iteration order is unspecified), and each public operation of
the engine is translated function-by-function from the source
(datafile.go / the datafile draft with the 24-byte header, keydir.go,
db.go draft with replay and background tasks, merge.go, util.go,
config.go, errors.go, hintfile.go).

Loops in the source (`for {}` over records) are translated with an
explicit fuel argument so that every definition is executable; each loop
iteration consumes at least 24 bytes of the file, so fuel equal to the
file length plus one is always sufficient.
-/

namespace Beck

/-- Byte values as they appear in Go byte slices and strings. -/
abbrev Byte := Fin 256

/-- Go byte slices / strings: sequences of bytes. -/
abbrev Bytes := List Byte

/-! ## CRC-32/IEEE (hash/crc32, ChecksumIEEE) -/

/-- One shift step of the reflected CRC-32/IEEE algorithm with the
polynomial 0xEDB88320. -/
def crc32Step (c : Nat) : Nat :=
  if c % 2 = 1 then Nat.xor 0xEDB88320 (c / 2) else c / 2

/-- Eight shift steps, processing a full byte. -/
def crc32Round (c : Nat) : Nat :=
  crc32Step (crc32Step (crc32Step (crc32Step
    (crc32Step (crc32Step (crc32Step (crc32Step c)))))))

/-- Fold one byte into the running CRC. -/
def crc32Update (c : Nat) (b : Byte) : Nat :=
  crc32Round (Nat.xor c b.val)

/-- CRC-32/IEEE of a byte sequence. -/
def crc32 (data : Bytes) : Nat :=
  Nat.xor (data.foldl crc32Update 0xFFFFFFFF) 0xFFFFFFFF

/-- util.go getChecksum: the CRC-32/IEEE checksum over key ++ value. -/
def getChecksum (key : Bytes) (val : Bytes) : Nat :=
  crc32 (key ++ val)

/-! ## Little-endian integer codec (encoding/binary, LittleEndian) -/

/-- Encode a natural number as `w` little-endian bytes (as
binary.Write with a fixed-width unsigned integer does). -/
def toLE : Nat → Nat → Bytes
  | 0, _ => []
  | w + 1, n => ⟨n % 256, Nat.mod_lt n (by omega)⟩ :: toLE w (n / 256)

/-- Decode a little-endian byte sequence into a natural number
(binary.LittleEndian.Uint32 / Uint64). -/
def fromLE : Bytes → Nat
  | [] => 0
  | b :: bs => b.val + 256 * fromLE bs

/-! ## Record codec (datafile source: record, newRecord, encode) -/

/-- Section lengths of the on-disk record header, in bytes. -/
def crcLen : Nat := 4

/-- Width of the timestamp field. -/
def timestampLen : Nat := 8

/-- Width of the key-size field. -/
def keySizeLen : Nat := 4

/-- Width of the value-size field. -/
def valSizeLen : Nat := 8

/-- Header size without the actual key and data (24 bytes). -/
def headerLen : Nat := crcLen + timestampLen + keySizeLen + valSizeLen

/-- The in-memory form of one on-disk record (source: type record). -/
structure record where
  checksum : Nat
  timestamp : Int
  keySize : Nat
  valSize : Nat
  key : Bytes
  val : Bytes
deriving DecidableEq

/-- Source newRecord: builds a record with the CRC of key ++ val and the
given timestamp (the Go code calls time.Now; the embedding passes the
clock value explicitly). -/
def newRecord (key : Bytes) (val : Bytes) (ts : Int) : record :=
  { checksum := getChecksum key val
    timestamp := ts
    keySize := key.length
    valSize := val.length
    key := key
    val := val }

/-- Source record.encode: little-endian header
(crc 4 B, timestamp 8 B, key size 4 B, value size 8 B) followed by the
raw key and value bytes. The int64 timestamp is written as its
two's-complement uint64 image. -/
def encodeRecord (r : record) : Bytes :=
  toLE 4 r.checksum ++
    (toLE 8 (Int.toNat (r.timestamp % (2 ^ 64 : Int))) ++
      (toLE 4 r.keySize ++ (toLE 8 r.valSize ++ (r.key ++ r.val))))

/-! ## Errors (errors.go) -/

/-- The error values of errors.go plus io.EOF (returned by positional
reads past the end of the file) and a wrapped OS error. -/
inductive Err where
  | databaseNotOpen
  | invalidRecord
  | invalidChecksum
  | incompleteWrite
  | databaseReadOnly
  | keyNotFound
  | invalidKey
  | keyRequired
  | keyTooLarge
  | valTooLarge
  | eof
  | ioError
deriving DecidableEq

/-! ## Association lists standing in for Go maps -/

/-- Lookup in an association list (Go map indexing). -/
def alGet {α β : Type} [DecidableEq α] : List (α × β) → α → Option β
  | [], _ => none
  | p :: t, k => if p.1 = k then some p.2 else alGet t k

/-- Remove every binding of a key (Go delete). -/
def alErase {α β : Type} [DecidableEq α] : List (α × β) → α → List (α × β)
  | [], _ => []
  | p :: t, k => if p.1 = k then alErase t k else p :: alErase t k

/-- Insert or overwrite a binding (Go map assignment). -/
def alInsert {α β : Type} [DecidableEq α] (d : List (α × β)) (k : α) (v : β) :
    List (α × β) :=
  (k, v) :: alErase d k

/-! ## Datafile (datafile source with the 24-byte header) -/

/-- A segment file: an append-only byte file with a tracked size
(source: type datafile; the OS file handle becomes the byte contents). -/
structure datafile where
  contents : Bytes
  syncOnWrite : Bool
  syncInterval : Nat
  readOnly : Bool
  size : Nat
deriving DecidableEq

/-- Source NewDatafile on a file with the given existing contents:
records the mode flags and initialises size from the file length. -/
def NewDatafile (contents : Bytes) (readOnly : Bool) (syncOnWrite : Bool)
    (syncInterval : Nat) : datafile :=
  { contents := contents
    syncOnWrite := syncOnWrite
    syncInterval := syncInterval
    readOnly := readOnly
    size := contents.length }

/-- Source datafile.append: fails ReadOnly on a read-only file, otherwise
appends the encoded record and returns (size, offset) where offset is
the tracked size before the write. -/
def datafile.append (d : datafile) (key : Bytes) (val : Bytes) (ts : Int) :
    Except Err (Nat × Nat × datafile) :=
  if d.readOnly then .error .databaseReadOnly
  else
    let encoded := encodeRecord (newRecord key val ts)
    .ok (encoded.length, d.size,
      { d with contents := d.contents ++ encoded, size := d.size + encoded.length })

/-- Source datafile.read: positional read of `size` bytes at `offset`,
header decode, key/value extraction and CRC verification. A read past
the end of the file surfaces the io error of ReadAt. -/
def datafile.read (d : datafile) (offset : Nat) (size : Nat) : Except Err Bytes :=
  if offset + size ≤ d.contents.length then
    let rcd := (d.contents.drop offset).take size
    let checksum := fromLE (rcd.take crcLen)
    let keySize := fromLE ((rcd.drop (crcLen + timestampLen)).take keySizeLen)
    let valSize := fromLE ((rcd.drop (crcLen + timestampLen + keySizeLen)).take valSizeLen)
    let key := (rcd.drop headerLen).take keySize
    let val := ((rcd.drop (headerLen + keySize)).take valSize)
    if getChecksum key val = checksum then .ok val else .error .invalidRecord
  else .error .ioError

/-- Source datafile.readRecord: reads the 24-byte header at `offset`,
then the full record, verifies the CRC and returns the decoded record
together with its on-disk footprint. Reads that run past the end of the
file return io.EOF (which the replay and compaction loops treat as a
clean stop). -/
def datafile.readRecord (d : datafile) (offset : Nat) : Except Err (record × Nat) :=
  if offset + headerLen > d.contents.length then .error .eof
  else
    let hdr := (d.contents.drop offset).take headerLen
    let checksum := fromLE (hdr.take crcLen)
    let timestamp := fromLE ((hdr.drop crcLen).take timestampLen)
    let keySize := fromLE ((hdr.drop (crcLen + timestampLen)).take keySizeLen)
    let valSize := fromLE ((hdr.drop (crcLen + timestampLen + keySizeLen)).take valSizeLen)
    let recordSize := headerLen + keySize + valSize
    if offset + recordSize > d.contents.length then .error .eof
    else
      let data := (d.contents.drop offset).take recordSize
      let key := (data.drop headerLen).take keySize
      let val := (data.drop (headerLen + keySize)).take valSize
      if getChecksum key val = checksum then
        .ok ({ checksum := checksum
               timestamp :=
                 if timestamp < 2 ^ 63 then (timestamp : Int) else (timestamp : Int) - 2 ^ 64
               keySize := keySize
               valSize := valSize, key := key, val := val }, recordSize)
      else .error .invalidRecord

/-! ## Hint file (hintfile source) -/

/-- Width of the record-size field of a hint record. -/
def hintRecordSizeLen : Nat := 8

/-- Width of the record-offset field of a hint record. -/
def hintRecordOffsetLen : Nat := 8

/-- Header size of a hint record (20 bytes). -/
def hintHeaderLen : Nat := keySizeLen + hintRecordSizeLen + hintRecordOffsetLen

/-- A single hint entry (source: type hintRecord). -/
structure hintRecord where
  key : Bytes
  recordSize : Nat
  recordPosition : Nat
deriving DecidableEq

/-- Source hintFile.append body: the encoded hint record
(key size 4 B, record size 8 B, record offset 8 B, key bytes). -/
def encodeHintRecord (key : Bytes) (recordSize : Nat) (recordPosition : Nat) : Bytes :=
  toLE 4 key.length ++ (toLE 8 recordSize ++ (toLE 8 recordPosition ++ key))

/-- Source hintFile.readNext on the unread remainder of the hint file:
returns the parsed hint record and the new remainder. Reading at the end
of the file yields io.EOF; a short header or short key read yields
ErrInvalidRecord. -/
def hintFile.readNext (bs : Bytes) : Except Err (hintRecord × Bytes) :=
  if bs.length = 0 then .error .eof
  else if bs.length < hintHeaderLen then .error .invalidRecord
  else
    let keySize := fromLE (bs.take keySizeLen)
    let recordSize := fromLE ((bs.drop keySizeLen).take hintRecordSizeLen)
    let recordPosition :=
      fromLE ((bs.drop (keySizeLen + hintRecordSizeLen)).take hintRecordOffsetLen)
    let rest := bs.drop hintHeaderLen
    if rest.length < keySize then .error .invalidRecord
    else
      .ok ({ key := rest.take keySize, recordSize := recordSize,
             recordPosition := recordPosition }, rest.drop keySize)

/-! ## Keyed index (keydir.go) -/

/-- An index entry (source: type header of keydir.go). -/
structure header where
  fileID : Nat
  recordSize : Nat
  recordPosition : Nat
  timestamp : Int
deriving DecidableEq

/-- The in-memory key directory (source: type keyDir): a map from key to
header, modelled as an association list. -/
def keyDirData := List (Bytes × header)

instance : DecidableEq keyDirData := by
  unfold keyDirData
  infer_instance

/-- Source keyDir.get. -/
def kdGet (d : keyDirData) (key : Bytes) : Option header :=
  alGet d key

/-- Source keyDir.put: insert or overwrite the binding for `key` (the Go
code stamps the entry with time.Now; the embedding passes the clock
value explicitly). -/
def kdPut (d : keyDirData) (key : Bytes) (fileID : Nat) (recordSize : Nat)
    (recordPosition : Nat) (ts : Int) : keyDirData :=
  alInsert d key
    { fileID := fileID, recordSize := recordSize, recordPosition := recordPosition,
      timestamp := ts }

/-- Source keyDir.putBatch: apply a list of bindings in order. -/
def kdPutBatch (d : keyDirData) (entries : List (Bytes × header)) : keyDirData :=
  entries.foldl (fun acc e => alInsert acc e.1 e.2) d

/-- Source keyDir.delete. -/
def kdDelete (d : keyDirData) (key : Bytes) : keyDirData :=
  alErase d key

/-- Source keyDir.listKeys: the keys currently bound. -/
def kdListKeys (d : keyDirData) : List Bytes :=
  d.map (·.1)

/-! ## Configuration (config.go) -/

/-- Maximum length of a key in bytes. -/
def maxKeySize : Nat := 32768

/-- Maximum length of a value in bytes. -/
def maxValueSize : Nat := 1 <<< 20

/-- The file id reserved for merged files. -/
def defaultMergedFileID : Nat := 0

/-- A tombstone is a record with the empty value. -/
def tombstoneVal : Bytes := []

/-- Engine configuration (source: type Config). Durations are in
nanoseconds, as Go time.Duration values are; the data directory is
passed to Open explicitly as a directory value. -/
structure Config where
  maxFileSize : Nat
  syncOnWrite : Bool
  syncInterval : Nat
  mergeInterval : Nat
  trackActiveDatafileInterval : Nat
  readOnly : Bool
deriving DecidableEq

/-- util.go validateEntry: the key/value constraints checked by Put. -/
def validateEntry (key : Bytes) (val : Bytes) : Option Err :=
  if key.length = 0 then some .keyRequired
  else if key.length > maxKeySize then some .keyTooLarge
  else if val.length > maxValueSize then some .valTooLarge
  else none

/-! ## Engine state (db source: type BeckDB) -/

/-- The engine: key directory, active datafile, frozen (old) datafiles
keyed by file id, and the active file id. -/
structure BeckDB where
  keyDir : keyDirData
  activeDatafile : datafile
  oldDataFiles : List (Nat × datafile)
  activeIndex : Nat
  cfg : Config
deriving DecidableEq

/-- Source BeckDB.Get: index lookup, dispatch to the active or a frozen
datafile by file id (ErrInvalidKey when the id resolves to neither),
then a positional read at the stored (offset, size). -/
def BeckDB.Get (db : BeckDB) (key : Bytes) : Except Err Bytes :=
  match kdGet db.keyDir key with
  | none => .error .keyNotFound
  | some h =>
    let df? := if h.fileID = db.activeIndex then some db.activeDatafile
               else alGet db.oldDataFiles h.fileID
    match df? with
    | none => .error .invalidKey
    | some df => df.read h.recordPosition h.recordSize

/-- Source BeckDB.Put: validate, append to the active datafile, then
write the new location into the key directory. The post-state is
returned alongside the result (on failure the engine is unchanged). -/
def BeckDB.Put (db : BeckDB) (key : Bytes) (val : Bytes) (ts : Int) :
    Except Err Unit × BeckDB :=
  match validateEntry key val with
  | some e => (.error e, db)
  | none =>
    match db.activeDatafile.append key val ts with
    | .error e => (.error e, db)
    | .ok (size, offset, df) =>
      (.ok (),
        { db with activeDatafile := df
                  keyDir := kdPut db.keyDir key db.activeIndex size offset ts })

/-- Source BeckDB.Delete: KeyNotFound when the key is not indexed,
otherwise append a tombstone record and remove the key from the index. -/
def BeckDB.Delete (db : BeckDB) (key : Bytes) (ts : Int) :
    Except Err Unit × BeckDB :=
  match kdGet db.keyDir key with
  | none => (.error .keyNotFound, db)
  | some _ =>
    match db.activeDatafile.append key tombstoneVal ts with
    | .error e => (.error e, db)
    | .ok (_, _, df) =>
      (.ok (), { db with activeDatafile := df, keyDir := kdDelete db.keyDir key })

/-- Source BeckDB.ListKeys. -/
def BeckDB.ListKeys (db : BeckDB) : List Bytes :=
  kdListKeys db.keyDir

/-- Source BeckDB.RotateActiveDatafile: below the size bound nothing
happens; otherwise the active datafile moves to the frozen map under its
id and a fresh writable datafile with the next id becomes active. -/
def BeckDB.RotateActiveDatafile (db : BeckDB) : Bool × BeckDB :=
  if db.activeDatafile.size < db.cfg.maxFileSize then (false, db)
  else
    let activeFileID := db.activeIndex + 1
    let newActive := NewDatafile [] false db.cfg.syncOnWrite db.cfg.syncInterval
    (true,
      { db with oldDataFiles := alInsert db.oldDataFiles db.activeIndex db.activeDatafile
                activeDatafile := newActive
                activeIndex := activeFileID })

/-! ## Compaction (merge.go) -/

/-- A surviving key/value pair collected by the compaction scan
(source: type entry). -/
structure entry where
  key : Bytes
  val : Bytes
deriving DecidableEq

/-- Failure injection for the fallible file operations inside Compact:
creating the merged data file or hint file, the i-th data or hint
append, and the final fsyncs. The all-false oracle models a run in which
every file operation succeeds. -/
structure CompactOracle where
  failCreateData : Bool
  failCreateHint : Bool
  failAppendData : Nat → Bool
  failAppendHint : Nat → Bool
  failPersistData : Bool
  failSyncHint : Bool

/-- The oracle under which every file operation succeeds. -/
def noFail : CompactOracle :=
  { failCreateData := false, failCreateHint := false
    failAppendData := fun _ => false, failAppendHint := fun _ => false
    failPersistData := false, failSyncHint := false }

/-- The inner scan loop of Compact over one frozen datafile: read
records sequentially from offset 0, keep those whose key-directory entry
matches this exact file and offset, stop at io.EOF, and abort on any
other read error. The fuel argument bounds the iteration count; each
iteration consumes at least 24 bytes, so contents.length + 1 is always
enough. -/
def compactScanFile (kd : keyDirData) (fileID : Nat) (df : datafile) :
    Nat → Nat → List entry → Except Err (List entry)
  | 0, _, _ => .error .ioError
  | fuel + 1, offset, acc =>
    match df.readRecord offset with
    | .error .eof => .ok acc
    | .error e => .error e
    | .ok (rcd, size) =>
      let keep : Bool :=
        match kdGet kd rcd.key with
        | some h => decide (h.fileID = fileID) && decide (h.recordPosition = offset)
        | none => false
      let acc' := if keep then acc ++ [{ key := rcd.key, val := rcd.val }] else acc
      compactScanFile kd fileID df fuel (offset + size) acc'

/-- The outer scan loop of Compact: process each frozen datafile in map
order, accumulating the live entries. -/
def compactScanAll (kd : keyDirData) : List (Nat × datafile) → List entry →
    Except Err (List entry)
  | [], acc => .ok acc
  | (fileID, df) :: rest, acc =>
    match compactScanFile kd fileID df (df.contents.length + 1) 0 acc with
    | .error e => .error e
    | .ok acc' => compactScanAll kd rest acc'

/-- The merged-file write loop of Compact: append each live entry to the
merged data file and a matching hint record to the hint file, recording
the merged key-directory entries. The oracle injects append failures. -/
def compactAppendLive (o : CompactOracle) (ts : Int) :
    List entry → Nat → datafile → Bytes → List (Bytes × header) →
    Except Err (datafile × Bytes × List (Bytes × header))
  | [], _, df, hint, acc => .ok (df, hint, acc)
  | e :: rest, i, df, hint, acc =>
    if o.failAppendData i then .error .ioError
    else
      match df.append e.key e.val ts with
      | .error er => .error er
      | .ok (size, offset, df') =>
        if o.failAppendHint i then .error .ioError
        else
          compactAppendLive o ts rest (i + 1) df'
            (hint ++ encodeHintRecord e.key size offset)
            (acc ++ [(e.key,
              { fileID := defaultMergedFileID, recordSize := size,
                recordPosition := offset, timestamp := ts })])

/-- Source BeckDB.cleanupStaleDatafiles: purge and drop every listed
file id that is still present in the frozen map (purging succeeds in the
model, so the collected last error is always nil). -/
def BeckDB.cleanupStaleDatafiles (db : BeckDB) (fileIDs : List Nat) :
    Except Err Unit × BeckDB :=
  (.ok (),
    { db with oldDataFiles := fileIDs.foldl (fun m id => alErase m id) db.oldDataFiles })

/-- Source BeckDB.Compact, step for step: skip when fewer than two
frozen files exist; scan all frozen files for live entries (collecting
every scanned id as stale); purge a pre-existing merged file at id 0;
create the merged data and hint files; append all live entries; fsync
both; install the merged file under id 0 and batch-write the new index
entries; finally purge every stale id. In-place mutations performed
before a failing step persist in the returned post-state, exactly as
they do on the Go receiver. -/
def BeckDB.Compact (db : BeckDB) (o : CompactOracle) (ts : Int) :
    Except Err Unit × BeckDB :=
  if db.oldDataFiles.length < 2 then (.ok (), db)
  else
    match compactScanAll db.keyDir db.oldDataFiles [] with
    | .error e => (.error e, db)
    | .ok liveEntries =>
      let staleFileIDs := db.oldDataFiles.map (·.1)
      let db := { db with oldDataFiles := alErase db.oldDataFiles defaultMergedFileID }
      if o.failCreateData then (.error .ioError, db)
      else
        let mergedDF := NewDatafile [] false false 0
        if o.failCreateHint then (.error .ioError, db)
        else
          match compactAppendLive o ts liveEntries 0 mergedDF [] [] with
          | .error e => (.error e, db)
          | .ok (mergedDF', _, mergedKeyDirEntries) =>
            if o.failPersistData then (.error .ioError, db)
            else if o.failSyncHint then (.error .ioError, db)
            else
              let db := { db with
                oldDataFiles := alInsert db.oldDataFiles defaultMergedFileID mergedDF'
                keyDir := kdPutBatch db.keyDir mergedKeyDirEntries }
              db.cleanupStaleDatafiles staleFileIDs

/-! ## Replay and Open (merge.go replay functions, db source Open) -/

/-- Source BeckDB.replayFromDataFile loop: read records sequentially and
put each into the key directory, stopping at io.EOF. On any other error
the partially built key directory is kept (the Go code mutates the
receiver in place) and the error is returned. -/
def replayDataLoop (fileID : Nat) (df : datafile) :
    Nat → Nat → keyDirData → (Except Err Unit × keyDirData)
  | 0, _, kd => (.error .ioError, kd)
  | fuel + 1, offset, kd =>
    match df.readRecord offset with
    | .error .eof => (.ok (), kd)
    | .error e => (.error e, kd)
    | .ok (rcd, size) =>
      replayDataLoop fileID df fuel (offset + size)
        (kdPut kd rcd.key fileID size offset rcd.timestamp)

/-- Source BeckDB.replayFromDataFile on a file with the given contents. -/
def replayFromDataFile (contents : Bytes) (fileID : Nat) :
    keyDirData → (Except Err Unit × keyDirData) :=
  fun kd =>
    replayDataLoop fileID (NewDatafile contents true false 0)
      (contents.length + 1) 0 kd

/-- Source BeckDB.replayFromHintFile loop: read hint records
sequentially and put each into the key directory, stopping at io.EOF;
any other error is returned with the partially built key directory. The
source stamps each entry with time.Now, passed here as ts. -/
def replayHintLoop (fileID : Nat) (ts : Int) :
    Nat → Bytes → keyDirData → (Except Err Unit × keyDirData)
  | 0, _, kd => (.error .ioError, kd)
  | fuel + 1, bs, kd =>
    match hintFile.readNext bs with
    | .error .eof => (.ok (), kd)
    | .error e => (.error e, kd)
    | .ok (hint, rest) =>
      replayHintLoop fileID ts fuel rest
        (kdPut kd hint.key fileID hint.recordSize hint.recordPosition ts)

/-- Source BeckDB.replayFromHintFile: opening a missing hint file fails,
otherwise the hint records are replayed sequentially. -/
def replayFromHintFile (hintContents : Option Bytes) (fileID : Nat) (ts : Int) :
    keyDirData → (Except Err Unit × keyDirData) :=
  fun kd =>
    match hintContents with
    | none => (.error .ioError, kd)
    | some bs => replayHintLoop fileID ts (bs.length + 1) bs kd

/-- A data directory on disk: the numbered .data files and the numbered
.hint files. -/
structure Directory where
  datafiles : List (Nat × Bytes)
  hintfiles : List (Nat × Bytes)

/-- Insert into a list kept sorted by ascending file id. -/
def insertByID (p : Nat × Bytes) : List (Nat × Bytes) → List (Nat × Bytes)
  | [] => [p]
  | q :: t => if p.1 ≤ q.1 then p :: q :: t else q :: insertByID p t

/-- util.go getDatafiles: the data files sorted by ascending file id
(slices.SortFunc comparing parsed ids). -/
def getDatafiles (dir : Directory) : List (Nat × Bytes) :=
  dir.datafiles.foldr insertByID []

/-- The per-segment replay step of Open: attempt the hint-file replay
first and, mirroring the source exactly, run the data-file replay both
when the hint replay failed and when it succeeded (both branches of the
if/else in the source call replayFromDataFile). -/
def openReplayFile (dir : Directory) (fileID : Nat) (contents : Bytes) (ts : Int)
    (kd : keyDirData) : Except Err keyDirData :=
  match replayFromHintFile (alGet dir.hintfiles fileID) fileID ts kd with
  | (.error _, kd1) =>
    match replayFromDataFile contents fileID kd1 with
    | (.error e, _) => .error e
    | (.ok _, kd2) => .ok kd2
  | (.ok _, kd1) =>
    match replayFromDataFile contents fileID kd1 with
    | (.error e, _) => .error e
    | (.ok _, kd2) => .ok kd2

/-- The discovery loop of Open: for each data file in ascending id
order, replay its contribution into the key directory and register it
read-only in the frozen map; the id of the last (highest-numbered) file
becomes recentFileID. -/
def openLoop (dir : Directory) (ts : Int) :
    List (Nat × Bytes) → keyDirData → List (Nat × datafile) → Nat →
    Except Err (keyDirData × List (Nat × datafile) × Nat)
  | [], kd, old, recent => .ok (kd, old, recent)
  | (fileID, contents) :: rest, kd, old, recent =>
    match openReplayFile dir fileID contents ts kd with
    | .error e => .error e
    | .ok kd' =>
      let df := NewDatafile contents true false 0
      let recent' := if rest.isEmpty then fileID else recent
      openLoop dir ts rest kd' (alInsert old fileID df) recent'

/-- Source Open: replay every discovered segment, then allocate the
active datafile with id recentFileID + 1, opened writable regardless of
cfg.ReadOnly (the source passes readOnly = false unconditionally). -/
def Open (cfg : Config) (dir : Directory) (ts : Int) : Except Err BeckDB :=
  match openLoop dir ts (getDatafiles dir) [] [] 0 with
  | .error e => .error e
  | .ok (kd, old, recentFileID) =>
    let activeIndex := recentFileID + 1
    let active := NewDatafile [] false cfg.syncOnWrite cfg.syncInterval
    .ok { keyDir := kd, activeDatafile := active, oldDataFiles := old,
          activeIndex := activeIndex, cfg := cfg }

/-- Source Open starts the periodic background sync task only when the
engine is neither read-only nor sync-on-write. -/
def startsSyncTask (cfg : Config) : Bool :=
  !cfg.readOnly && !cfg.syncOnWrite

/-- Source Open starts the periodic merge task unconditionally (the go
statement is not guarded by cfg.ReadOnly). -/
def startsMergeTask (_ : Config) : Bool :=
  true

/-- Source Open starts the periodic rotation-check task unconditionally
(the go statement is not guarded by cfg.ReadOnly). -/
def startsTrackTask (_ : Config) : Bool :=
  true

/-! ## The rotation-check ticker (db source trackActiveDatafile) -/

/-- Ten minutes in nanoseconds, the wait-interval cap. -/
def maxWaitInterval : Nat := 600000000000

/-- One tick of trackActiveDatafile: when the rotation check did not
rotate, the ticker is reset to min(2 * configured base, ten minutes);
when it rotated, the ticker keeps its current period (the source resets
only in the non-rotated branch). -/
def trackTickerNext (cfg : Config) (current : Nat) (rotated : Bool) : Nat :=
  if !rotated then min (2 * cfg.trackActiveDatafileInterval) maxWaitInterval
  else current

/-- The ticker period after a sequence of rotation-check outcomes,
starting from the configured base interval. -/
def trackIntervals (cfg : Config) (outs : List Bool) : Nat :=
  outs.foldl (trackTickerNext cfg) cfg.trackActiveDatafileInterval

/-- Modelled from the spec: the interval policy the specification
describes for the rotation-check task (spec 4.7) — on a check with no
rotation the interval doubles from its previous value, capped at ten
minutes; on a rotation it returns to the configured base. Stated here
only to compare against the behaviour of the source. -/
def specTrackTickerNext (base : Nat) (current : Nat) (rotated : Bool) : Nat :=
  if !rotated then min (2 * current) maxWaitInterval else base

/-- The spec-described ticker period after a sequence of rotation-check
outcomes. -/
def specTrackIntervals (base : Nat) (outs : List Bool) : Nat :=
  outs.foldl (specTrackTickerNext base) base

/-! ## Concrete fixtures used by the counterexample and evaluation
theorems below -/

/-- An empty data directory. -/
def emptyDir : Directory :=
  { datafiles := [], hintfiles := [] }

/-- The engine state Open builds on an empty directory: empty index, no
frozen files, a fresh writable active datafile with id 1. -/
def openedEmpty (cfg : Config) : BeckDB :=
  { keyDir := []
    activeDatafile := NewDatafile [] false cfg.syncOnWrite cfg.syncInterval
    oldDataFiles := []
    activeIndex := 1
    cfg := cfg }

/-- Key "a". -/
def ka : Bytes := [97]

/-- Value "1". -/
def va : Bytes := [49]

/-- Key "b". -/
def kb : Bytes := [98]

/-- Value "2". -/
def vb : Bytes := [50]

/-- Key "c". -/
def kc : Bytes := [99]

/-- Value "3". -/
def vc : Bytes := [51]

/-- Key "k". -/
def kk : Bytes := [107]

/-- Value "v". -/
def vk : Bytes := [118]

/-- A configuration with MaxFileSize 1, so that every non-empty active
file is due for rotation. -/
def tinyCfg : Config :=
  { maxFileSize := 1, syncOnWrite := true, syncInterval := 0, mergeInterval := 0
    trackActiveDatafileInterval := 0, readOnly := false }

/-- A configuration with the default 64 MiB MaxFileSize. -/
def bigCfg : Config :=
  { maxFileSize := 67108864, syncOnWrite := true, syncInterval := 0, mergeInterval := 0
    trackActiveDatafileInterval := 0, readOnly := false }

/-- The double-compaction trace: open an empty directory, write and
rotate twice, compact (producing merged file 0), write and rotate once
more, leaving frozen files 0 and 3. -/
def dblDb1 : BeckDB := ((openedEmpty tinyCfg).Put ka va 0).2

/-- Trace state after the first rotation. -/
def dblDb2 : BeckDB := dblDb1.RotateActiveDatafile.2

/-- Trace state after the second put. -/
def dblDb3 : BeckDB := (dblDb2.Put kb vb 0).2

/-- Trace state after the second rotation. -/
def dblDb4 : BeckDB := dblDb3.RotateActiveDatafile.2

/-- Trace state after the first (successful) compaction. -/
def dblDb5 : BeckDB := (dblDb4.Compact noFail 0).2

/-- Trace state after the third put. -/
def dblDb6 : BeckDB := (dblDb5.Put kc vc 0).2

/-- Trace state after the third rotation: frozen files 0 (merged) and 3,
active id 4, with keys a and b indexed in merged file 0. -/
def dblDb7 : BeckDB := dblDb6.RotateActiveDatafile.2

/-- The result of the second compaction run on the trace. -/
def dblCompact2 : Except Err Unit × BeckDB := dblDb7.Compact noFail 0

/-- A frozen datafile holding the single record (a, 1). -/
def cfFile0 : datafile := NewDatafile (encodeRecord (newRecord ka va 0)) true false 0

/-- A frozen datafile holding the single record (b, 2). -/
def cfFile1 : datafile := NewDatafile (encodeRecord (newRecord kb vb 0)) true false 0

/-- An engine whose frozen map holds a pre-existing merged file (id 0)
and one further frozen file (id 1), with both keys live in the index. -/
def cfDb : BeckDB :=
  { keyDir := [(ka, { fileID := 0, recordSize := 26, recordPosition := 0, timestamp := 0 }),
               (kb, { fileID := 1, recordSize := 26, recordPosition := 0, timestamp := 0 })]
    activeDatafile := NewDatafile [] false true 0
    oldDataFiles := [(0, cfFile0), (1, cfFile1)]
    activeIndex := 2
    cfg := tinyCfg }

/-- An oracle under which creating the merged data file fails. -/
def cfOracle : CompactOracle :=
  { noFail with failCreateData := true }

/-- The result of the failing compaction run. -/
def cfCompact : Except Err Unit × BeckDB := cfDb.Compact cfOracle 0

/-- The put-then-delete session: key k is written and then deleted, so
the last record appended to the active file is a tombstone for k. -/
def pdDb : BeckDB := (((openedEmpty bigCfg).Put kk vk 0).2.Delete kk 0).2

/-- The directory left behind by closing the put-then-delete session:
one data file (id 1, the active file's bytes) and no hint files. -/
def pdDir : Directory :=
  { datafiles := [(1, pdDb.activeDatafile.contents)], hintfiles := [] }

/-- The engine after re-opening the put-then-delete directory. -/
def pdReopened : Except Err BeckDB := Open bigCfg pdDir 0

/-- A directory whose single segment has a valid, parseable hint file;
the hint names key b while the data file holds a record for key a, so
the effects of the two replays are distinguishable. -/
def hintDir : Directory :=
  { datafiles := [(1, encodeRecord (newRecord ka va 0))]
    hintfiles := [(1, encodeHintRecord kb 26 0)] }

/-- The engine after opening the hint directory. -/
def hintOpened : Except Err BeckDB := Open bigCfg hintDir 0

/-- A configuration with the ReadOnly flag set. -/
def roCfg : Config :=
  { maxFileSize := 67108864, syncOnWrite := true, syncInterval := 0, mergeInterval := 0
    trackActiveDatafileInterval := 0, readOnly := true }

/-- A configuration whose rotation-check base interval is one minute. -/
def minuteCfg : Config :=
  { maxFileSize := 67108864, syncOnWrite := true, syncInterval := 0, mergeInterval := 0
    trackActiveDatafileInterval := 60000000000, readOnly := false }

/-- A state whose single index entry names file id 7, which is neither
the active id nor present in the (empty) frozen map. -/
def danglingDb : BeckDB :=
  { keyDir := [(ka, { fileID := 7, recordSize := 26, recordPosition := 0, timestamp := 0 })]
    activeDatafile := NewDatafile [] false true 0
    oldDataFiles := []
    activeIndex := 1
    cfg := bigCfg }

deriving instance DecidableEq for Except

/-! ## Lemmas about the codec -/

theorem toLE_length (w : Nat) : ∀ n : Nat, (toLE w n).length = w := by
  induction w with
  | zero => intro n; rfl
  | succ w ih => intro n; simp [toLE, ih]

theorem fromLE_toLE (w : Nat) : ∀ n : Nat, fromLE (toLE w n) = n % 256 ^ w := by
  induction w with
  | zero => intro n; simp [toLE, fromLE, Nat.mod_one]
  | succ w ih =>
    intro n
    have h : (256 : Nat) ^ (w + 1) = 256 * 256 ^ w := by ring
    simp only [toLE, fromLE, ih, h, Nat.mod_mul]

theorem fromLE_toLE_of_lt {w n : Nat} (h : n < 256 ^ w) : fromLE (toLE w n) = n := by
  rw [fromLE_toLE, Nat.mod_eq_of_lt h]

theorem crc32Step_lt {c : Nat} (h : c < 2 ^ 32) : crc32Step c < 2 ^ 32 := by
  unfold crc32Step
  split
  · exact Nat.xor_lt_two_pow (by norm_num) (by omega)
  · omega

theorem crc32Update_lt {c : Nat} (b : Byte) (h : c < 2 ^ 32) :
    crc32Update c b < 2 ^ 32 := by
  have hx : Nat.xor c b.val < 2 ^ 32 :=
    Nat.xor_lt_two_pow h (lt_trans b.isLt (by norm_num))
  unfold crc32Update crc32Round
  exact crc32Step_lt (crc32Step_lt (crc32Step_lt (crc32Step_lt
    (crc32Step_lt (crc32Step_lt (crc32Step_lt (crc32Step_lt hx)))))))

theorem crc32_foldl_lt (data : Bytes) :
    ∀ c : Nat, c < 2 ^ 32 → data.foldl crc32Update c < 2 ^ 32 := by
  induction data with
  | nil => intro c h; simpa using h
  | cons b t ih => intro c h; exact ih _ (crc32Update_lt b h)

theorem getChecksum_lt (key val : Bytes) : getChecksum key val < 2 ^ 32 := by
  unfold getChecksum crc32
  exact Nat.xor_lt_two_pow (crc32_foldl_lt _ _ (by norm_num)) (by norm_num)

theorem encodeRecord_length (r : record) :
    (encodeRecord r).length = headerLen + r.key.length + r.val.length := by
  simp [encodeRecord, toLE_length, headerLen, crcLen, timestampLen, keySizeLen, valSizeLen]
  omega

theorem encodeRecord_take_crc (r : record) :
    (encodeRecord r).take crcLen = toLE 4 r.checksum := by
  unfold encodeRecord crcLen
  exact List.take_left' (toLE_length 4 _)

theorem encodeRecord_keySize_field (r : record) :
    ((encodeRecord r).drop (crcLen + timestampLen)).take keySizeLen = toLE 4 r.keySize := by
  unfold encodeRecord crcLen timestampLen keySizeLen
  rw [show toLE 4 r.checksum ++ (toLE 8 (Int.toNat (r.timestamp % (2 ^ 64 : Int))) ++
        (toLE 4 r.keySize ++ (toLE 8 r.valSize ++ (r.key ++ r.val)))) =
      (toLE 4 r.checksum ++ toLE 8 (Int.toNat (r.timestamp % (2 ^ 64 : Int)))) ++
        (toLE 4 r.keySize ++ (toLE 8 r.valSize ++ (r.key ++ r.val))) by
    simp [List.append_assoc]]
  rw [List.drop_left' (by simp [toLE_length])]
  exact List.take_left' (toLE_length 4 _)

theorem encodeRecord_valSize_field (r : record) :
    ((encodeRecord r).drop (crcLen + timestampLen + keySizeLen)).take valSizeLen =
      toLE 8 r.valSize := by
  unfold encodeRecord crcLen timestampLen keySizeLen valSizeLen
  rw [show toLE 4 r.checksum ++ (toLE 8 (Int.toNat (r.timestamp % (2 ^ 64 : Int))) ++
        (toLE 4 r.keySize ++ (toLE 8 r.valSize ++ (r.key ++ r.val)))) =
      (toLE 4 r.checksum ++ (toLE 8 (Int.toNat (r.timestamp % (2 ^ 64 : Int))) ++
        toLE 4 r.keySize)) ++ (toLE 8 r.valSize ++ (r.key ++ r.val)) by
    simp [List.append_assoc]]
  rw [List.drop_left' (by simp [toLE_length])]
  exact List.take_left' (toLE_length 8 _)

theorem encodeRecord_drop_header (r : record) :
    (encodeRecord r).drop headerLen = r.key ++ r.val := by
  unfold encodeRecord headerLen crcLen timestampLen keySizeLen valSizeLen
  rw [show toLE 4 r.checksum ++ (toLE 8 (Int.toNat (r.timestamp % (2 ^ 64 : Int))) ++
        (toLE 4 r.keySize ++ (toLE 8 r.valSize ++ (r.key ++ r.val)))) =
      (toLE 4 r.checksum ++ (toLE 8 (Int.toNat (r.timestamp % (2 ^ 64 : Int))) ++
        (toLE 4 r.keySize ++ toLE 8 r.valSize))) ++ (r.key ++ r.val) by
    simp [List.append_assoc]]
  exact List.drop_left' (by simp [toLE_length])

/-- Reading back a record that was appended at the end of a file
returns exactly the value that was written. -/
theorem read_appended_record (d : datafile) (c key val : Bytes) (ts : Int)
    (hc : d.contents = c ++ encodeRecord (newRecord key val ts))
    (hk : key.length < 256 ^ 4) (hv : val.length < 256 ^ 8) :
    d.read c.length (headerLen + key.length + val.length) = .ok val := by
  have hlen : (encodeRecord (newRecord key val ts)).length =
      headerLen + key.length + val.length := by
    simp [encodeRecord_length, newRecord]
  unfold datafile.read
  rw [if_pos (by rw [hc]; simp [hlen])]
  have hrcd : (d.contents.drop c.length).take (headerLen + key.length + val.length) =
      encodeRecord (newRecord key val ts) := by
    rw [hc, List.drop_left, ← hlen, List.take_length]
  have hcs : fromLE ((encodeRecord (newRecord key val ts)).take crcLen) =
      getChecksum key val := by
    rw [encodeRecord_take_crc]
    exact fromLE_toLE_of_lt (by simpa [newRecord] using getChecksum_lt key val)
  have hks : fromLE (((encodeRecord (newRecord key val ts)).drop
      (crcLen + timestampLen)).take keySizeLen) = key.length := by
    rw [encodeRecord_keySize_field]
    exact fromLE_toLE_of_lt (by simpa [newRecord] using hk)
  have hvs : fromLE (((encodeRecord (newRecord key val ts)).drop
      (crcLen + timestampLen + keySizeLen)).take valSizeLen) = val.length := by
    rw [encodeRecord_valSize_field]
    exact fromLE_toLE_of_lt (by simpa [newRecord] using hv)
  have hkey : ((encodeRecord (newRecord key val ts)).drop headerLen).take key.length =
      key := by
    rw [encodeRecord_drop_header, newRecord, List.take_left]
  have hval : ((encodeRecord (newRecord key val ts)).drop (headerLen + key.length)).take
      val.length = val := by
    have h1 : (encodeRecord (newRecord key val ts)).drop (headerLen + key.length) =
        ((encodeRecord (newRecord key val ts)).drop headerLen).drop key.length := by
      rw [List.drop_drop]
    rw [h1, encodeRecord_drop_header, newRecord, List.drop_left, List.take_length]
  simp only [hrcd, hcs, hks, hvs, hkey, hval, if_pos, eq_self_iff_true, if_true]

/-! ## Lemmas about the association-list maps -/

theorem alGet_alInsert_self {α β : Type} [DecidableEq α] (d : List (α × β)) (k : α)
    (v : β) : alGet (alInsert d k v) k = some v := by
  simp [alInsert, alGet]

theorem alGet_alErase_of_ne {α β : Type} [DecidableEq α] (d : List (α × β)) (k k' : α)
    (h : k' ≠ k) : alGet (alErase d k) k' = alGet d k' := by
  induction d with
  | nil => rfl
  | cons p t ih =>
    by_cases hp : p.1 = k
    · rw [alErase, if_pos hp, ih, alGet, if_neg (by rw [hp]; exact fun he => h he.symm)]
    · rw [alErase, if_neg hp]
      by_cases hq : p.1 = k'
      · rw [alGet, if_pos hq, alGet, if_pos hq]
      · rw [alGet, if_neg hq, alGet, if_neg hq, ih]

/-! ## Claim C1: put followed by get returns the written value -/

/-- Claim C1: for every key k with 1 <= len k <= 32768 and every value v
with len v <= 1048576, on an open writable engine (the active datafile
is writable and its tracked size agrees with its length) a successful
put(k, v) followed by get(k) returns exactly the bytes v. -/
theorem C1_put_then_get_roundtrip (db : BeckDB) (key val : Bytes) (ts : Int)
    (hro : db.activeDatafile.readOnly = false)
    (hsz : db.activeDatafile.size = db.activeDatafile.contents.length)
    (hk1 : 1 ≤ key.length) (hk2 : key.length ≤ 32768) (hv : val.length ≤ 1048576) :
    (db.Put key val ts).1 = .ok () ∧ (db.Put key val ts).2.Get key = .ok val := by
  have hvalid : validateEntry key val = none := by
    unfold validateEntry maxKeySize maxValueSize
    rw [if_neg (by omega), if_neg (by omega), if_neg (by omega)]
  have happ : db.activeDatafile.append key val ts =
      .ok ((encodeRecord (newRecord key val ts)).length, db.activeDatafile.size,
        { db.activeDatafile with
            contents := db.activeDatafile.contents ++ encodeRecord (newRecord key val ts)
            size := db.activeDatafile.size +
              (encodeRecord (newRecord key val ts)).length }) := by
    unfold datafile.append
    rw [if_neg (by rw [hro]; simp)]
  have hput : db.Put key val ts =
      (.ok (),
        { db with
            activeDatafile := { db.activeDatafile with
              contents := db.activeDatafile.contents ++ encodeRecord (newRecord key val ts)
              size := db.activeDatafile.size + (encodeRecord (newRecord key val ts)).length }
            keyDir := kdPut db.keyDir key db.activeIndex
              (encodeRecord (newRecord key val ts)).length db.activeDatafile.size ts }) := by
    unfold BeckDB.Put
    rw [hvalid, happ]
  refine ⟨by rw [hput], ?_⟩
  rw [hput]
  unfold BeckDB.Get
  rw [show kdGet (kdPut db.keyDir key db.activeIndex
      (encodeRecord (newRecord key val ts)).length db.activeDatafile.size ts) key =
      some { fileID := db.activeIndex
             recordSize := (encodeRecord (newRecord key val ts)).length
             recordPosition := db.activeDatafile.size, timestamp := ts } from
    alGet_alInsert_self _ _ _]
  simp only [if_pos rfl]
  rw [show (encodeRecord (newRecord key val ts)).length =
      headerLen + key.length + val.length by simp [encodeRecord_length, newRecord]]
  rw [hsz]
  exact read_appended_record _ db.activeDatafile.contents key val ts rfl
    (by norm_num; omega) (by norm_num; omega)

/-- Witness for C1 at a concrete engine, key and value. -/
theorem C1_roundtrip_witness :
    ((openedEmpty bigCfg).Put ka va 0).1 = .ok () ∧
      ((openedEmpty bigCfg).Put ka va 0).2.Get ka = .ok va :=
  C1_put_then_get_roundtrip (openedEmpty bigCfg) ka va 0 (by decide) (by decide)
    (by decide) (by decide) (by decide)

/-! ## Claim C8: append returns the encoded size and the prior length -/

/-- Claim C8: every successful append of (k, v) to a writable segment
returns size equal to the length of the encoded record, exactly
24 + len k + len v bytes, offset equal to the segment's tracked length
immediately before the write, and increases the tracked length by
exactly that size. -/
theorem C8_append_size_and_offset (d : datafile) (key val : Bytes) (ts : Int)
    (size offset : Nat) (d' : datafile)
    (h : d.append key val ts = .ok (size, offset, d')) :
    size = headerLen + key.length + val.length ∧ offset = d.size ∧
      d'.size = d.size + size := by
  unfold datafile.append at h
  by_cases hro : d.readOnly
  · rw [if_pos hro] at h
    exact absurd h (by simp)
  · rw [if_neg hro] at h
    simp only [Except.ok.injEq, Prod.mk.injEq] at h
    obtain ⟨h1, h2, h3⟩ := h
    refine ⟨?_, h2.symm, ?_⟩
    · rw [← h1]; simp [encodeRecord_length, newRecord]
    · rw [← h3, ← h1]

/-- Witness for C8 at a concrete append. -/
theorem C8_append_witness :
    26 = headerLen + ka.length + va.length ∧ 0 = (NewDatafile [] false true 0).size ∧
      (NewDatafile (encodeRecord (newRecord ka va 0)) false true 0).size =
        (NewDatafile [] false true 0).size + 26 :=
  C8_append_size_and_offset (NewDatafile [] false true 0) ka va 0 26 0
    (NewDatafile (encodeRecord (newRecord ka va 0)) false true 0) (by decide)

/-! ## Claim C10: a dangling index entry yields ErrInvalidKey -/

/-- Claim C10: if get(k) finds an index entry whose segment id is
neither the active id nor a key of the frozen map, it returns the
distinct invalid-key error, which is neither KeyNotFound nor
InvalidRecord; the result is independent of all file contents, so no
file read takes place. -/
theorem C10_get_dangling_entry (db : BeckDB) (key : Bytes) (h : header)
    (hfind : kdGet db.keyDir key = some h)
    (hactive : h.fileID ≠ db.activeIndex)
    (hfrozen : alGet db.oldDataFiles h.fileID = none) :
    db.Get key = .error .invalidKey ∧ Err.invalidKey ≠ Err.keyNotFound ∧
      Err.invalidKey ≠ Err.invalidRecord := by
  refine ⟨?_, by decide, by decide⟩
  unfold BeckDB.Get
  rw [hfind]
  simp only [if_neg hactive, hfrozen]

/-- Witness for C10 at a concrete engine whose single index entry names
file id 7 while the active id is 1 and the frozen map is empty. -/
theorem C10_get_dangling_witness :
    danglingDb.Get ka = .error .invalidKey ∧ Err.invalidKey ≠ Err.keyNotFound ∧
      Err.invalidKey ≠ Err.invalidRecord :=
  C10_get_dangling_entry danglingDb ka
    { fileID := 7, recordSize := 26, recordPosition := 0, timestamp := 0 }
    (by decide) (by decide) (by decide)

/-! ## Claim C4: state after a failing compaction -/

/-- Every Compact run either returns success, or leaves the engine
fully unchanged, or leaves it changed only by the purge of a
pre-existing merged segment (id 0) from the frozen map. -/
theorem compact_cases (db : BeckDB) (o : CompactOracle) (ts : Int) :
    (db.Compact o ts).1 = .ok () ∨ (db.Compact o ts).2 = db ∨
      (db.Compact o ts).2 =
        { db with oldDataFiles := alErase db.oldDataFiles defaultMergedFileID } := by
  unfold BeckDB.Compact
  split
  · left; rfl
  · split
    · right; left; rfl
    · simp only []
      split
      · right; right; rfl
      · split
        · right; right; rfl
        · split
          · right; right; rfl
          · split
            · right; right; rfl
            · split
              · right; right; rfl
              · left; rfl

/-- Claim C4 (amended): if compact() returns an error, the index
contents, the active segment and the active id are exactly as before
the call, and every frozen segment other than a pre-existing merged
segment (id 0) is still present unchanged in the frozen map. (An entry
pointing at a pre-existing merged segment may no longer resolve, since
that segment is purged before the new merged file is created.) -/
theorem C4_compact_error_preserves (db : BeckDB) (o : CompactOracle) (ts : Int)
    (e : Err) (h : (db.Compact o ts).1 = .error e) :
    (db.Compact o ts).2.keyDir = db.keyDir ∧
      (db.Compact o ts).2.activeDatafile = db.activeDatafile ∧
      (db.Compact o ts).2.activeIndex = db.activeIndex ∧
      ∀ id : Nat, id ≠ 0 →
        alGet (db.Compact o ts).2.oldDataFiles id = alGet db.oldDataFiles id := by
  rcases compact_cases db o ts with hok | h2 | h2
  · rw [hok] at h; exact absurd h (by simp)
  · rw [h2]; exact ⟨rfl, rfl, rfl, fun _ _ => rfl⟩
  · rw [h2]
    exact ⟨rfl, rfl, rfl, fun id hid => alGet_alErase_of_ne _ _ _ hid⟩

/-- Witness for C4 at a concrete failing compaction. -/
theorem C4_compact_error_witness :
    cfCompact.2.keyDir = cfDb.keyDir ∧
      cfCompact.2.activeDatafile = cfDb.activeDatafile ∧
      cfCompact.2.activeIndex = cfDb.activeIndex ∧
      alGet cfCompact.2.oldDataFiles 1 = alGet cfDb.oldDataFiles 1 :=
  ⟨(C4_compact_error_preserves cfDb cfOracle 0 .ioError (by decide)).1,
    (C4_compact_error_preserves cfDb cfOracle 0 .ioError (by decide)).2.1,
    (C4_compact_error_preserves cfDb cfOracle 0 .ioError (by decide)).2.2.1,
    (C4_compact_error_preserves cfDb cfOracle 0 .ioError (by decide)).2.2.2 1 (by decide)⟩

/-- Counterexample to C4 as stated: on an engine whose frozen map holds
a pre-existing merged segment (id 0) referenced by the index, a
compaction that fails while creating the new merged data file returns
an error, keeps the index unchanged, but leaves the entry for key a
pointing at id 0, which is no longer the active segment nor a member of
the frozen map — the stale datum is no longer readable. -/
theorem C4_compact_error_counterexample :
    cfCompact.1 = .error .ioError ∧
      cfCompact.2.keyDir = cfDb.keyDir ∧
      kdGet cfCompact.2.keyDir ka =
        some { fileID := 0, recordSize := 26, recordPosition := 0, timestamp := 0 } ∧
      alGet cfCompact.2.oldDataFiles 0 = none ∧
      cfCompact.2.activeIndex = 2 ∧
      cfCompact.2.Get ka = .error .invalidKey := by
  decide

/-! ## Claim C9: the rotation-check ticker policy -/

/-- Claim C9 (amended): a check that finds no rotation due sets the next
interval to min(2 x configured TrackActiveDatafileInterval, ten
minutes), regardless of the interval currently in force; a check that
performs a rotation leaves the interval unchanged (it is not reset to
the configured base). -/
theorem C9_ticker_policy (cfg : Config) (outs : List Bool) :
    trackIntervals cfg (outs ++ [false]) =
        min (2 * cfg.trackActiveDatafileInterval) maxWaitInterval ∧
      trackIntervals cfg (outs ++ [true]) = trackIntervals cfg outs := by
  constructor
  · unfold trackIntervals
    rw [List.foldl_append]
    rfl
  · unfold trackIntervals
    rw [List.foldl_append]
    rfl

/-- Counterexample to C9 as stated: with a one-minute base, after two
consecutive checks with no rotation the source ticker sits at two
minutes (it always resets to twice the base) while the claimed doubling
policy reaches four minutes; and after a no-rotation check followed by
a rotating check the source ticker stays at two minutes while the
claimed policy returns to the one-minute base. -/
theorem C9_ticker_counterexample :
    trackIntervals minuteCfg [false, false] = 120000000000 ∧
      specTrackIntervals minuteCfg.trackActiveDatafileInterval [false, false] =
        240000000000 ∧
      trackIntervals minuteCfg [false, false] ≠
        specTrackIntervals minuteCfg.trackActiveDatafileInterval [false, false] ∧
      trackIntervals minuteCfg [false, true] = 120000000000 ∧
      specTrackIntervals minuteCfg.trackActiveDatafileInterval [false, true] =
        60000000000 ∧
      trackIntervals minuteCfg [false, true] ≠
        specTrackIntervals minuteCfg.trackActiveDatafileInterval [false, true] := by
  decide

/-! ## Claim C2: the index invariant, violated by a double compaction -/

/-- Claim C2 fails on the code: after the reachable trace open(empty);
put a; rotate; put b; rotate; compact; put c; rotate, a second compact
returns success, yet afterwards the index entry for key a names segment
id 0 while id 0 is neither the active id (4) nor in the frozen map —
the id 0 in the stale list makes the final cleanup purge the newly
installed merged segment — so no read of a's record is possible at all
and Get returns ErrInvalidKey. -/
theorem C2_invariant_broken_by_double_compaction :
    Open tinyCfg emptyDir 0 = .ok (openedEmpty tinyCfg) ∧
      dblCompact2.1 = .ok () ∧
      kdGet dblCompact2.2.keyDir ka =
        some { fileID := 0, recordSize := 26, recordPosition := 52, timestamp := 0 } ∧
      dblCompact2.2.activeIndex = 4 ∧
      alGet dblCompact2.2.oldDataFiles 0 = none ∧
      dblCompact2.2.Get ka = .error .invalidKey := by
  decide

/-! ## Claim C3: values preserved by a successful compaction -/

/-- Claim C3 fails on the code: on the same trace, key a is live and
readable before the second compaction (Get returns its bytes), the
compaction returns success and keeps a in the key listing, yet Get
afterwards fails with ErrInvalidKey because the cleanup purged the new
merged segment. -/
theorem C3_compaction_loses_live_value :
    dblDb7.Get ka = .ok va ∧
      dblCompact2.1 = .ok () ∧
      ka ∈ dblDb7.ListKeys ∧
      ka ∈ dblCompact2.2.ListKeys ∧
      dblCompact2.2.Get ka = .error .invalidKey := by
  decide

/-! ## Claim C5: tombstones are resurrected by close and re-open -/

/-- Claim C5 fails on the code: after put(k, v); delete(k); close, the
re-opened engine's data-file replay inserts the trailing tombstone
record into the index, so k is present and get(k) returns the empty
byte string instead of KeyNotFound. -/
theorem C5_reopen_resurrects_deleted_key :
    pdReopened.map (fun d => (kdGet d.keyDir kk).isSome) = .ok true ∧
      pdReopened.map (fun d => d.Get kk) = .ok (.ok ([] : Bytes)) ∧
      pdReopened.map (fun d => d.Get kk) ≠ .ok (.error .keyNotFound) := by
  decide

/-! ## Claim C6: data-file replay runs even when hint replay succeeds -/

/-- Claim C6 fails on the code: on a directory whose segment 1 has a
valid hint file naming key b while the data file holds a record for key
a, the hint replay succeeds, yet Open still performs the data-file
replay (both branches of its if/else call replayFromDataFile), so the
index afterwards contains the data file's key a in addition to the
hint's key b. -/
theorem C6_open_replays_data_despite_hint :
    (replayFromHintFile (alGet hintDir.hintfiles 1) 1 0 []).1 = .ok () ∧
      hintOpened.map
        (fun d => ((kdGet d.keyDir ka).isSome, (kdGet d.keyDir kb).isSome)) =
        .ok (true, true) := by
  decide

/-! ## Claim C7: the ReadOnly flag is not enforced -/

/-- Claim C7 fails on the code: opening with ReadOnly set still creates
the active datafile writable (the source passes readOnly = false
unconditionally) and Put never consults cfg.ReadOnly, so put succeeds
and mutates the index and the active segment; moreover the merge and
rotation-check background tasks are started unconditionally. -/
theorem C7_readonly_not_enforced :
    Open roCfg emptyDir 0 = .ok (openedEmpty roCfg) ∧
      (openedEmpty roCfg).cfg.readOnly = true ∧
      (openedEmpty roCfg).activeDatafile.readOnly = false ∧
      ((openedEmpty roCfg).Put ka va 0).1 = .ok () ∧
      ((openedEmpty roCfg).Put ka va 0).2.Get ka = .ok va ∧
      ((openedEmpty roCfg).Put ka va 0).2.keyDir ≠ (openedEmpty roCfg).keyDir ∧
      startsMergeTask roCfg = true ∧
      startsTrackTask roCfg = true := by
  decide

end Beck
